import Mathlib

/-!
Verification of the script-writing application (src/index.tsx).

The file shallowly embeds the pure core of the application: prompt
construction, input preflight validation, provider-response handling,
title formatting, text flattening for the whole document and for the
per-section copy action, the speech playback state machine, and the PDF
pagination loop.  JavaScript strings are modelled as Lean `String`
(lists of characters); JavaScript's built-in `trim` and `parseInt` are
modelled by `jsTrim` and `jsParseInt` below.
-/

/-- Canonical section payload for the `visualIdeas` key
(type `VisualIdeas` in src/index.tsx). -/
structure VisualIdeas where
  shotSuggestions : List String
  bRoll : List String
deriving DecidableEq, Repr

/-- The value stored under one section key
(`GeneratedSectionValue = string | VisualIdeas` in src/index.tsx). -/
inductive GeneratedSectionValue
  | text (s : String)
  | visual (vi : VisualIdeas)
deriving DecidableEq, Repr

/-- JavaScript `String.prototype.trim`: drop whitespace from both ends.
(JS also trims a few exotic Unicode spaces; the application only ever
trims ASCII user input, where the two notions agree.) -/
def jsTrim (s : String) : String :=
  String.mk (((s.data.dropWhile fun c => c.isWhitespace).reverse.dropWhile
    fun c => c.isWhitespace).reverse)

/-- The character class `[A-Z]` of the regex in `formatTitle`. -/
def isAsciiUpper (c : Char) : Bool :=
  decide (65 ≤ c.toNat ∧ c.toNat ≤ 90)

/-- Value of a list of decimal digit characters. -/
def digitsVal (ds : List Char) : Nat :=
  ds.foldl (fun a c => 10 * a + (c.toNat - 48)) 0

/-- The longest leading run of decimal digits, or `none` when there is
no leading digit (in JS, `parseInt` then returns `NaN`). -/
def leadingDigits (cs : List Char) : Option Nat :=
  let ds := cs.takeWhile fun c => c.isDigit
  if ds.isEmpty then none else some (digitsVal ds)

/-- JavaScript `parseInt` with no radix argument on decimal input:
skip leading whitespace, read an optional sign and then the longest
run of decimal digits; `none` models `NaN`.  (The `0x` hex prefix
auto-detection of `parseInt` is not modelled; the application feeds it
the value of a `type="number"` input.) -/
def jsParseInt (s : String) : Option Int :=
  let cs := s.data.dropWhile fun c => c.isWhitespace
  match cs with
  | '-' :: rest => (leadingDigits rest).map fun n => -(n : Int)
  | '+' :: rest => (leadingDigits rest).map fun n => (n : Int)
  | rest => (leadingDigits rest).map fun n => (n : Int)

/-- JavaScript `Array.prototype.join`: concatenate with a separator
between consecutive elements. -/
def joinSep (sep : String) : List String → String
  | [] => ""
  | [x] => x
  | x :: xs => x ++ sep ++ joinSep sep xs

/-- Does `sub` occur at the start of `hay`? -/
def isPref : List Char → List Char → Bool
  | [], _ => true
  | _ :: _, [] => false
  | a :: as, b :: bs => a == b && isPref as bs

/-- Does `sub` occur anywhere in `hay`? -/
def occursIn (sub : List Char) : List Char → Bool
  | [] => isPref sub []
  | c :: rest => isPref sub (c :: rest) || occursIn sub rest

/-- Substring test on strings. -/
def strContains (s sub : String) : Bool :=
  occursIn sub.data s.data

/-- First regex pass of `formatTitle` (src/index.tsx line 163):
`replace(/([A-Z])/g, ' $1')` puts a space before every ASCII capital,
including one in first position. -/
def insertSpacesBeforeCaps : List Char → List Char
  | [] => []
  | c :: cs =>
      if isAsciiUpper c then ' ' :: c :: insertSpacesBeforeCaps cs
      else c :: insertSpacesBeforeCaps cs

/-- Second regex pass of `formatTitle`: `replace(/^./, toUpperCase)`
upper-cases the first character; `.` does not match a line terminator,
so a string starting with one is returned unchanged. -/
def capFirst : List Char → List Char
  | [] => []
  | c :: cs => if c == '\n' || c == '\r' then c :: cs else c.toUpper :: cs

/-- `formatTitle` from src/index.tsx lines 162-164. -/
def formatTitle (title : String) : String :=
  String.mk (capFirst (insertSpacesBeforeCaps title.data))

/-- The spec's reading of title derivation (§4.3): insert a space
before every INTERNAL capital letter (never before the first
character), then capitalize the first character.  Stated from the
spec's words, for comparison with the source's `formatTitle`. -/
def titleDerivationSpec (s : String) : String :=
  match s.data with
  | [] => ""
  | c :: cs => String.mk (c.toUpper :: insertSpacesBeforeCaps cs)

/-- The shape of a provider reply after `JSON.parse` succeeded: each of
the six schema keys may or may not be present on the parsed object. -/
structure ParsedReply where
  hook : Option String
  introduction : Option String
  mainContent : Option String
  callToAction : Option String
  visualIdeas : Option VisualIdeas
  hashtags : Option String
deriving DecidableEq, Repr

/-- The provider response as classified by the JavaScript runtime:
no text (absent or empty `response.text`), text that `JSON.parse`
rejects, or a parsed object. -/
inductive ProviderResponse
  | noText
  | badJson (raw : String)
  | parsed (r : ParsedReply)
deriving DecidableEq, Repr

/-- Outcome of `handleGenerate`'s response handling: a user-visible
error message (`setError`) or a document exposed to the renderers
(`setGeneratedSections`). -/
inductive GenerateResult
  | error (msg : String)
  | document (doc : ParsedReply)
deriving DecidableEq, Repr

/-- Response handling of `handleGenerate`, src/index.tsx lines 136-153:
empty reply and parse failure produce error messages; a parsed reply
whose `hook` is the sentinel produces the policy message; any other
parsed reply is stored as the generated document, with no key check. -/
def handleProviderResponse : ProviderResponse → GenerateResult
  | .noText => .error "The model did not return a script. This might be due to a content safety filter. Please try modifying your request."
  | .badJson _ => .error "The generated script was not in the expected format. Please try again."
  | .parsed r =>
      if r.hook == some "CONTENT_VIOLATION" then
        .error "Sorry, we are not able to provide this type of information."
      else .document r

/-- All six keys required by the request schema are present. -/
def hasAllSixKeys (r : ParsedReply) : Bool :=
  r.hook.isSome && r.introduction.isSome && r.mainContent.isSome &&
    r.callToAction.isSome && r.visualIdeas.isSome && r.hashtags.isSome

/-- The guard of `if (wordCount && parseInt(wordCount) > 0)` at
src/index.tsx line 85: the string is truthy (non-empty) and parses to
a positive integer (`NaN > 0` is false). -/
def wordCountDirectiveCond (wordCount : String) : Bool :=
  (wordCount != "") &&
    (match jsParseInt wordCount with
     | some n => decide (0 < n)
     | none => false)

/-- Prompt construction of `handleGenerate`, src/index.tsx lines 83-91. -/
def buildPrompt (scriptContent : String) (selectedPlatforms : List String)
    (wordCount advancedInstructions : String) : String :=
  let prompt := "Based on the following content idea, generate a script for a social media post tailored for the following platforms: "
    ++ joinSep ", " selectedPlatforms
    ++ ". Include a hook, introduction, main content, a call to action, detailed visual ideas (with specific shot suggestions and B-roll ideas), and relevant hashtags.\n\nIdea: \""
    ++ scriptContent ++ "\""
  let prompt := if wordCountDirectiveCond wordCount then
      prompt ++ "\n\nThe main content should be approximately " ++ wordCount ++ " words."
    else prompt
  let prompt := if jsTrim advancedInstructions != "" then
      prompt ++ "\n\nAdvanced Instructions: " ++ jsTrim advancedInstructions
    else prompt
  prompt

/-- What `handleGenerate` decides before any provider call: a local
input-validation error, or a request carrying the built prompt. -/
inductive PreflightResult
  | inputError (msg : String)
  | request (prompt : String)
deriving DecidableEq, Repr

/-- Input validation and request construction of `handleGenerate`,
src/index.tsx lines 70-91: a blank idea or an empty platform selection
returns an error before any request is built. -/
def generatePreflight (scriptContent : String) (selectedPlatforms : List String)
    (wordCount advancedInstructions : String) : PreflightResult :=
  if jsTrim scriptContent == "" then
    .inputError "Please enter a content idea first."
  else if selectedPlatforms.length == 0 then
    .inputError "Please select at least one target platform."
  else
    .request (buildPrompt scriptContent selectedPlatforms wordCount advancedInstructions)

/-- `getFullScriptText` from src/index.tsx lines 172-188: render each
section as title plus body (dash bullets for visual ideas) and join
the sections with a blank line, in document order. -/
def getFullScriptText (generatedSections : List (String × GeneratedSectionValue)) : String :=
  joinSep "\n\n" (generatedSections.map fun kv =>
    let title := formatTitle kv.1
    match kv.2 with
    | .text v => title ++ "\n" ++ v
    | .visual vi =>
        let shots := joinSep "\n" (vi.shotSuggestions.map fun s => "- " ++ s)
        let bRolls := joinSep "\n" (vi.bRoll.map fun b => "- " ++ b)
        title ++ "\nShot Suggestions:\n" ++ shots ++ "\n\nB-Roll:\n" ++ bRolls)

/-- The string the per-section copy button places on the clipboard
(src/index.tsx line 383): the body verbatim for a text section, and a
title-less, dash-less flattening for a visual-ideas section. -/
def sectionCopyText (value : GeneratedSectionValue) : String :=
  match value with
  | .text v => v
  | .visual vi =>
      "Shot Suggestions:\n" ++ joinSep "\n" vi.shotSuggestions
        ++ "\n\nB-Roll:\n" ++ joinSep "\n" vi.bRoll

/-- Speech playback state: the key currently marked speaking
(`speakingKey` state in src/index.tsx) and the utterance text the
speech engine is currently playing, if any. -/
structure SpeechState where
  speakingKey : Option String
  playing : Option String
deriving DecidableEq, Repr

/-- Commands `handleListen` issues to the speech engine. -/
inductive SpeechAction
  | cancel
  | speak (text : String)
deriving DecidableEq, Repr

/-- `handleListen` from src/index.tsx lines 263-282: pressing the key
already speaking cancels and clears; any other key cancels whatever is
playing and starts the new utterance. -/
def handleListen (st : SpeechState) (key textToSpeak : String) : SpeechState :=
  if st.speakingKey == some key then { speakingKey := none, playing := none }
  else { speakingKey := some key, playing := some textToSpeak }

/-- The sequence of engine commands issued by one `handleListen` call:
always a cancel first, then optionally the new utterance. -/
def listenActions (st : SpeechState) (key textToSpeak : String) : List SpeechAction :=
  if st.speakingKey == some key then [.cancel]
  else [.cancel, .speak textToSpeak]

/-- The `onend` handler of an utterance clears the speaking key. -/
def utteranceEnded (_ : SpeechState) : SpeechState :=
  { speakingKey := none, playing := none }

/-- jsPDF default A4 page height in millimetres, as read at
src/index.tsx line 195 (jsPDF reports 297.0000833…; the cursor only
takes integer values, so comparing against 297 is equivalent). -/
def pageHeight : Nat := 297

/-- The fixed margin of `handleExportPdf` (src/index.tsx line 197). -/
def margin : Nat := 15

/-- The fixed line-height increment `y += 7` (src/index.tsx line 209). -/
def lineHeight : Nat := 7

/-- One iteration of the pagination loop of `handleExportPdf`
(src/index.tsx lines 203-210) on the state (page count, cursor y):
if the cursor is already past `pageHeight - margin`, add a page and
reset it to the margin; then emit the line and advance the cursor. -/
def pdfStep (st : Nat × Nat) : Nat × Nat :=
  if pageHeight - margin < st.2 then (st.1 + 1, margin + lineHeight)
  else (st.1, st.2 + lineHeight)

/-- Number of pages produced by `handleExportPdf` for the given
word-wrapped lines: the document starts with one page and the cursor
at the top margin, and each line runs `pdfStep`. -/
def exportPdfPages (textLines : List String) : Nat :=
  (textLines.foldl (fun st _line => pdfStep st) (1, margin)).1

/-- `pdfStep` iterated n times. -/
def pdfRun : Nat → Nat × Nat → Nat × Nat
  | 0, st => st
  | n + 1, st => pdfRun n (pdfStep st)

/-- Lines that fit on one page: the cursor values on a fresh page are
margin, margin + lineHeight, …, and a line is emitted without a page
break while the cursor is at most `pageHeight - margin`. -/
def pageCapacity : Nat := (pageHeight - 2 * margin) / lineHeight + 1

theorem strAppendAssoc (a b c : String) : a ++ b ++ c = a ++ (b ++ c) := by
  apply String.ext
  simp [String.data_append, List.append_assoc]

theorem joinSep_append (sep : String) (d1 d2 : List String) (h1 : d1 ≠ []) (h2 : d2 ≠ []) :
    joinSep sep (d1 ++ d2) = joinSep sep d1 ++ sep ++ joinSep sep d2 := by
  induction d1 with
  | nil => exact absurd rfl h1
  | cons x xs ih =>
    cases xs with
    | nil =>
      cases d2 with
      | nil => exact absurd rfl h2
      | cons y ys => simp [joinSep]
    | cons y ys =>
      have step := ih (by simp)
      calc joinSep sep (x :: y :: ys ++ d2)
          = x ++ sep ++ joinSep sep (y :: ys ++ d2) := by simp [joinSep]
        _ = x ++ sep ++ (joinSep sep (y :: ys) ++ sep ++ joinSep sep d2) := by rw [step]
        _ = x ++ sep ++ joinSep sep (y :: ys) ++ sep ++ joinSep sep d2 := by
              simp [strAppendAssoc]
        _ = joinSep sep (x :: y :: ys) ++ sep ++ joinSep sep d2 := by simp [joinSep]

theorem insertSpacesBeforeCaps_not_upper (c : Char) (cs : List Char)
    (hc : isAsciiUpper c = false) :
    insertSpacesBeforeCaps (c :: cs) = c :: insertSpacesBeforeCaps cs := by
  simp [insertSpacesBeforeCaps, hc]

/-- C4 (counterexample): on the input `Hook`, which starts with a
capital letter, the source's `formatTitle` inserts a leading space,
while the spec's internal-capitals-only rule leaves the string
unchanged, so the two disagree. -/
theorem formatTitle_internal_only_counterexample :
    formatTitle "Hook" = " Hook" ∧ titleDerivationSpec "Hook" = "Hook"
      ∧ formatTitle "Hook" ≠ titleDerivationSpec "Hook" := by
  refine ⟨by decide, by decide, by decide⟩

/-- C4 (amended): title derivation inserts a space before every ASCII
capital letter, including one in first position, then capitalizes the
first character of the result; on every input that does not start with
a capital this coincides with the spec's internal-capitals-only rule,
and in particular `mainContent`, `callToAction` and `hashtags` map to
`Main Content`, `Call To Action` and `Hashtags`. -/
theorem formatTitle_spec_amended :
    formatTitle "mainContent" = "Main Content"
    ∧ formatTitle "callToAction" = "Call To Action"
    ∧ formatTitle "hashtags" = "Hashtags"
    ∧ ∀ s : String, (∀ c, s.data.head? = some c → isAsciiUpper c = false) →
        formatTitle s = titleDerivationSpec s := by
  refine ⟨by decide, by decide, by decide, ?_⟩
  intro s h
  cases s with
  | mk l =>
    cases l with
    | nil => rfl
    | cons c cs =>
      have hc : isAsciiUpper c = false := h c rfl
      show String.mk (capFirst (insertSpacesBeforeCaps (c :: cs)))
        = String.mk (c.toUpper :: insertSpacesBeforeCaps cs)
      rw [insertSpacesBeforeCaps_not_upper c cs hc]
      by_cases hnl : (c == '\n' || c == '\r') = true
      · have hcc : c.toUpper = c := by
          rcases (Bool.or_eq_true _ _).mp hnl with h1 | h1
          · have h2 : c = '\n' := eq_of_beq h1
            subst h2; decide
          · have h2 : c = '\r' := eq_of_beq h1
            subst h2; decide
        simp [capFirst, hnl, hcc]
      · simp [capFirst, hnl]

/-- C4 (witness): the amended rule evaluated at the key `hashtags`,
which starts with a lowercase letter. -/
theorem formatTitle_spec_amended_witness :
    formatTitle "hashtags" = titleDerivationSpec "hashtags" :=
  formatTitle_spec_amended.2.2.2 "hashtags" (by
    intro c hc
    have hc3 : some 'h' = some c := hc
    cases hc3
    decide)

/-- C9: `formatTitle` puts a space before every capital letter, not
only internal ones: every input starting with an ASCII capital yields
a result with a leading space, because the subsequent first-character
capitalization hits that space and is a no-op; in particular `Hook`
maps to `' Hook'` with the space. -/
theorem formatTitle_leading_space :
    (∀ (c : Char) (cs : List Char), isAsciiUpper c = true →
      (formatTitle (String.mk (c :: cs))).data.head? = some ' ')
    ∧ formatTitle "Hook" = " Hook" := by
  constructor
  · intro c cs hc
    show (String.mk (capFirst (insertSpacesBeforeCaps (c :: cs)))).data.head? = some ' '
    rw [show insertSpacesBeforeCaps (c :: cs) = ' ' :: c :: insertSpacesBeforeCaps cs from by
      simp [insertSpacesBeforeCaps, hc]]
    rfl
  · decide

/-- C9 (witness): the leading-space property evaluated at `Hook`. -/
theorem formatTitle_leading_space_witness :
    (formatTitle (String.mk ('H' :: "ook".data))).data.head? = some ' ' :=
  formatTitle_leading_space.1 'H' "ook".data (by decide)

/-- C2: whenever the parsed reply's `hook` equals the sentinel
`CONTENT_VIOLATION`, the result is the user-facing policy-rejection
message, and no document is exposed to the renderers, whatever the
other fields of the reply hold. -/
theorem handleProviderResponse_sentinel :
    ∀ r : ParsedReply, r.hook = some "CONTENT_VIOLATION" →
      handleProviderResponse (.parsed r)
          = .error "Sorry, we are not able to provide this type of information."
        ∧ ∀ d, handleProviderResponse (.parsed r) ≠ .document d := by
  intro r h
  have hb : (r.hook == some "CONTENT_VIOLATION") = true := by
    rw [h]; exact beq_self_eq_true _
  refine ⟨by simp [handleProviderResponse, hb], ?_⟩
  intro d
  simp [handleProviderResponse, hb]

/-- C2 (witness): a sentinel reply whose mainContent and every other
field are non-empty is still rejected with the policy message. -/
theorem handleProviderResponse_sentinel_witness :
    handleProviderResponse (.parsed ⟨some "CONTENT_VIOLATION", some "intro", some "a non-empty main content", some "cta", some ⟨["shot"], ["roll"]⟩, some "#tag"⟩)
        = .error "Sorry, we are not able to provide this type of information."
      ∧ ∀ d, handleProviderResponse (.parsed ⟨some "CONTENT_VIOLATION", some "intro", some "a non-empty main content", some "cta", some ⟨["shot"], ["roll"]⟩, some "#tag"⟩) ≠ .document d :=
  handleProviderResponse_sentinel ⟨some "CONTENT_VIOLATION", some "intro", some "a non-empty main content", some "cta", some ⟨["shot"], ["roll"]⟩, some "#tag"⟩ rfl

/-- C1 (counterexample): a parsed reply that lacks the required
`mainContent` key (and so fails `hasAllSixKeys`) is nonetheless
exposed to the renderers as the generated document: the code performs
no client-side schema check, so no SchemaError path exists. -/
theorem handleProviderResponse_missing_keys_counterexample :
    hasAllSixKeys ⟨some "Try this!", some "intro", none, some "cta", some ⟨["wide shot"], ["clouds"]⟩, some "#coffee"⟩ = false
      ∧ handleProviderResponse (.parsed ⟨some "Try this!", some "intro", none, some "cta", some ⟨["wide shot"], ["clouds"]⟩, some "#coffee"⟩)
          = .document ⟨some "Try this!", some "intro", none, some "cta", some ⟨["wide shot"], ["clouds"]⟩, some "#coffee"⟩ := by
  refine ⟨by decide, by decide⟩

/-- C1 (amended): the client performs no missing-key validation — every
parsed reply whose `hook` is not the policy sentinel is exposed to the
renderers exactly as parsed, even when required keys are absent; key
completeness is only requested from the provider through the request's
response schema, not enforced on the reply. -/
theorem handleProviderResponse_no_schema_check :
    ∀ r : ParsedReply, r.hook ≠ some "CONTENT_VIOLATION" →
      handleProviderResponse (.parsed r) = .document r := by
  intro r h
  have hb : (r.hook == some "CONTENT_VIOLATION") = false := by
    rw [beq_eq_false_iff_ne]; exact h
  simp [handleProviderResponse, hb]

/-- C1 (witness): a reply carrying only a `hook` is exposed as-is. -/
theorem handleProviderResponse_no_schema_check_witness :
    handleProviderResponse (.parsed ⟨some "Hello", none, none, none, none, none⟩)
      = .document ⟨some "Hello", none, none, none, none, none⟩ :=
  handleProviderResponse_no_schema_check ⟨some "Hello", none, none, none, none, none⟩ (by decide)

/-- C8: whenever the idea is blank (trims to the empty string) or the
selected platform set is empty, `handleGenerate` stops with a local
input-validation error message, and no request is constructed. -/
theorem generatePreflight_blocks_invalid :
    ∀ (scriptContent : String) (selectedPlatforms : List String) (wc adv : String),
      jsTrim scriptContent = "" ∨ selectedPlatforms = [] →
      ∃ msg, generatePreflight scriptContent selectedPlatforms wc adv = .inputError msg := by
  intro sc ps wc adv h
  by_cases h1 : jsTrim sc = ""
  · exact ⟨"Please enter a content idea first.", by simp [generatePreflight, h1]⟩
  · have h2 : ps = [] := h.resolve_left h1
    exact ⟨"Please select at least one target platform.", by
      simp [generatePreflight, h1, h2]⟩

/-- C8 (witness): a whitespace-only idea is rejected locally. -/
theorem generatePreflight_blocks_invalid_witness :
    (jsTrim "   " = "" ∨ (["Instagram"] : List String) = [])
      ∧ ∃ msg, generatePreflight "   " ["Instagram"] "" "" = .inputError msg :=
  ⟨Or.inl (by decide),
   generatePreflight_blocks_invalid "   " ["Instagram"] "" "" (Or.inl (by decide))⟩

/-- C5: the speech state holds at most one speaking key: listening to
the key already speaking cancels and clears the state (toggle-off);
listening to any other key yields the new key with the new utterance
playing, regardless of what was playing before (cancel-then-start —
every call's first engine command is a cancel); and the speaking key
never names two keys at once. -/
theorem handleListen_exclusive :
    (∀ (st : SpeechState) (key text : String), st.speakingKey = some key →
        handleListen st key text = ⟨none, none⟩)
    ∧ (∀ (st : SpeechState) (key text : String), st.speakingKey ≠ some key →
        handleListen st key text = ⟨some key, some text⟩)
    ∧ (∀ (st : SpeechState) (key text : String),
        (listenActions st key text).head? = some .cancel)
    ∧ (∀ (st : SpeechState) (key text : String) (k1 k2 : String),
        (handleListen st key text).speakingKey = some k1 →
        (handleListen st key text).speakingKey = some k2 → k1 = k2) := by
  refine ⟨?_, ?_, ?_, ?_⟩
  · intro st key text h
    have hb : (st.speakingKey == some key) = true := by
      rw [h]; exact beq_self_eq_true _
    simp [handleListen, hb]
  · intro st key text h
    have hb : (st.speakingKey == some key) = false := by
      rw [beq_eq_false_iff_ne]; exact h
    simp [handleListen, hb]
  · intro st key text
    unfold listenActions
    split <;> rfl
  · intro st key text k1 k2 h1 h2
    exact Option.some.inj (h1.symm.trans h2)

/-- C5 (witness): listening to `hook` while `hook` speaks toggles off;
listening to `introduction` while `hook` speaks supersedes it. -/
theorem handleListen_exclusive_witness :
    handleListen ⟨some "hook", some "Hook text"⟩ "hook" "Hook text" = ⟨none, none⟩
      ∧ handleListen ⟨some "hook", some "Hook text"⟩ "introduction" "Intro text"
          = ⟨some "introduction", some "Intro text"⟩ :=
  ⟨handleListen_exclusive.1 ⟨some "hook", some "Hook text"⟩ "hook" "Hook text" rfl,
   handleListen_exclusive.2.1 ⟨some "hook", some "Hook text"⟩ "introduction" "Intro text" (by decide)⟩

theorem pdfFoldl_eq_pdfRun (lines : List String) (st : Nat × Nat) :
    lines.foldl (fun s _line => pdfStep s) st = pdfRun lines.length st := by
  induction lines generalizing st with
  | nil => rfl
  | cons x xs ih => simp [List.length_cons, pdfRun, List.foldl, ih]

theorem pdfRun_add (a b : Nat) (st : Nat × Nat) :
    pdfRun (a + b) st = pdfRun b (pdfRun a st) := by
  induction a generalizing st with
  | zero => simp [pdfRun]
  | succ n ih =>
    have h1 : n + 1 + b = (n + b) + 1 := by omega
    rw [h1]
    show pdfRun (n + b) (pdfStep st) = pdfRun b (pdfRun (n + 1) st)
    rw [ih]
    rfl

theorem pdfRun_pages_mono (n : Nat) (st : Nat × Nat) : st.1 ≤ (pdfRun n st).1 := by
  induction n generalizing st with
  | zero => exact le_refl _
  | succ n ih =>
    have hst : st.1 ≤ (pdfStep st).1 := by
      unfold pdfStep; split <;> simp
    exact le_trans hst (ih (pdfStep st))

set_option maxRecDepth 8192 in
theorem pdfRun_small : ∀ n < 40, (pdfRun n (1, 15)).1 = 1 := by decide

set_option maxRecDepth 4096 in
theorem pdfRun_forty : pdfRun 40 (1, 15) = (2, 22) := by decide

/-- C6: under the fixed geometry (A4 height 297, margin 15, line
height 7) a page holds `pageCapacity` = 39 lines; the export produces
exactly one page precisely when the wrapped lines fit within one
page's capacity, and more than one page precisely when they exceed
it. -/
theorem exportPdfPages_pagination :
    ∀ textLines : List String,
      (exportPdfPages textLines = 1 ↔ textLines.length ≤ pageCapacity)
      ∧ (1 < exportPdfPages textLines ↔ pageCapacity < textLines.length) := by
  intro lines
  have hcap : pageCapacity = 39 := by decide
  have he : exportPdfPages lines = (pdfRun lines.length (1, 15)).1 := by
    unfold exportPdfPages
    rw [pdfFoldl_eq_pdfRun]
    rfl
  by_cases hn : lines.length ≤ 39
  · have h1 : (pdfRun lines.length (1, 15)).1 = 1 := pdfRun_small _ (by omega)
    refine ⟨⟨fun _ => by omega, fun _ => by rw [he, h1]⟩, ⟨fun hgt => ?_, fun hgt => ?_⟩⟩
    · rw [he, h1] at hgt; omega
    · rw [hcap] at hgt; omega
  · push_neg at hn
    have hsplit : lines.length = 40 + (lines.length - 40) := by omega
    have h2 : 2 ≤ (pdfRun lines.length (1, 15)).1 := by
      rw [hsplit, pdfRun_add, pdfRun_forty]
      exact pdfRun_pages_mono (lines.length - 40) (2, 22)
    refine ⟨⟨fun h1 => ?_, fun hle => ?_⟩, ⟨fun _ => by omega, fun _ => by rw [he]; omega⟩⟩
    · rw [he] at h1; omega
    · rw [hcap] at hle; omega

theorem jsParseInt_empty : jsParseInt "" = none := rfl

set_option maxRecDepth 8192 in
/-- C7: the prompt carries the approximate word-count directive exactly
when the supplied word-count string parses to a positive integer, and
for the idea about coffee with platform `Instagram` and word count 50
the constructed prompt contains the substrings `approximately 50
words` and `Instagram`. -/
theorem buildPrompt_wordCount :
    (∀ wordCount : String,
        wordCountDirectiveCond wordCount = true
          ↔ ∃ n : Int, jsParseInt wordCount = some n ∧ 0 < n)
    ∧ strContains (buildPrompt "A 30 second video about coffee" ["Instagram"] "50" "") "approximately 50 words" = true
    ∧ strContains (buildPrompt "A 30 second video about coffee" ["Instagram"] "50" "") "Instagram" = true := by
  refine ⟨?_, by decide, by decide⟩
  intro wc
  constructor
  · intro h
    unfold wordCountDirectiveCond at h
    rw [Bool.and_eq_true] at h
    obtain ⟨-, h2⟩ := h
    cases hj : jsParseInt wc with
    | none => rw [hj] at h2; simp at h2
    | some n =>
      rw [hj] at h2
      simp at h2
      exact ⟨n, rfl, h2⟩
  · rintro ⟨n, hj, hn⟩
    have hne : wc ≠ "" := by
      intro hE; rw [hE] at hj
      exact Option.noConfusion (jsParseInt_empty ▸ hj)
    unfold wordCountDirectiveCond
    rw [Bool.and_eq_true]
    exact ⟨bne_iff_ne.mpr hne, by rw [hj]; exact decide_eq_true hn⟩

/-- C3: the full-text flattening joins the sections in document order
separated by one blank line; a text section renders as its derived
title, a newline and the body; a visual-ideas section renders as the
derived title, `Shot Suggestions:` with one dash-prefixed line per
shot, a blank line, and `B-Roll:` with one dash-prefixed line per
b-roll item — in particular shots `wide shot` and b-roll `clouds`
flatten to `Shot Suggestions:\n- wide shot\n\nB-Roll:\n- clouds`
under the section title. -/
theorem getFullScriptText_spec :
    (∀ d1 d2 : List (String × GeneratedSectionValue), d1 ≠ [] → d2 ≠ [] →
        getFullScriptText (d1 ++ d2)
          = getFullScriptText d1 ++ "\n\n" ++ getFullScriptText d2)
    ∧ (∀ key v, getFullScriptText [(key, .text v)] = formatTitle key ++ "\n" ++ v)
    ∧ (∀ key vi, getFullScriptText [(key, .visual vi)]
        = formatTitle key ++ "\nShot Suggestions:\n"
          ++ joinSep "\n" (vi.shotSuggestions.map fun s => "- " ++ s)
          ++ "\n\nB-Roll:\n" ++ joinSep "\n" (vi.bRoll.map fun b => "- " ++ b))
    ∧ getFullScriptText [("visualIdeas", .visual ⟨["wide shot"], ["clouds"]⟩)]
        = "Visual Ideas\nShot Suggestions:\n- wide shot\n\nB-Roll:\n- clouds" := by
  refine ⟨?_, fun key v => rfl, fun key vi => rfl, by decide⟩
  intro d1 d2 h1 h2
  unfold getFullScriptText
  rw [List.map_append]
  exact joinSep_append _ _ _ (by simpa using h1) (by simpa using h2)

/-- C3 (witness): the blank-line concatenation evaluated on two
concrete one-section documents. -/
theorem getFullScriptText_spec_witness :
    getFullScriptText ([("hook", GeneratedSectionValue.text "Try this!")]
        ++ [("hashtags", GeneratedSectionValue.text "#coffee")])
      = getFullScriptText [("hook", GeneratedSectionValue.text "Try this!")] ++ "\n\n"
        ++ getFullScriptText [("hashtags", GeneratedSectionValue.text "#coffee")] :=
  getFullScriptText_spec.1 _ _ (by decide) (by decide)

/-- C10: the per-section copy action flattens differently from the
whole-document one: a text section is copied verbatim with no title; a
visual-ideas section is copied as `Shot Suggestions:` with the shots
joined by plain newlines (no dash prefixes), a blank line, and
`B-Roll:` with the b-roll items joined by plain newlines, omitting the
section title — so on the same section it differs from the
whole-document flattening. -/
theorem sectionCopyText_spec :
    (∀ v, sectionCopyText (.text v) = v)
    ∧ (∀ vi, sectionCopyText (.visual vi)
        = "Shot Suggestions:\n" ++ joinSep "\n" vi.shotSuggestions
          ++ "\n\nB-Roll:\n" ++ joinSep "\n" vi.bRoll)
    ∧ sectionCopyText (.visual ⟨["wide shot"], ["clouds"]⟩)
        = "Shot Suggestions:\nwide shot\n\nB-Roll:\nclouds"
    ∧ sectionCopyText (.visual ⟨["wide shot"], ["clouds"]⟩)
        ≠ getFullScriptText [("visualIdeas", .visual ⟨["wide shot"], ["clouds"]⟩)] := by
  refine ⟨fun v => rfl, fun vi => rfl, by decide, by decide⟩
